import Mathlib

/-!
Verification of the SmartHarvester planting tracker against its specification.

This development gives a shallow embedding of the parts of the code that the
claims concern: the care-plan calculator (tracker/plan_calculator.py), the
planting views (tracker/views.py: index, save_planting, cognito_login), the
DynamoDB helper (tracker/dynamodb_helper.py), the S3 helper
(tracker/s3_helper.py) and the Cognito OAuth helper (tracker/cognito.py).

Modelling conventions:
- Calendar dates are modelled as unbounded day counts (Int, days since
  1970-01-01); the bounded range of Python date objects is not modelled.
- Python dicts read from data.json are modelled by structures carrying the
  keys the code reads, with Option marking possibly absent keys.
- Python string lower/upper/title operations are modelled on ASCII letters
  (Char.toLower and Char.toUpper of Lean), which is how the code uses them.
- Fallible code is modelled with Option or Except; a Python exception that
  the code does not catch surfaces as an error value.
-/

namespace SmartHarvester

/-! ## Python string primitives -/

/-- Model of Python str.lower (ASCII letters, as used on crop names). -/
def lowerStr (s : String) : String :=
  String.mk (s.data.map Char.toLower)

/-- One step of Python str.title: a letter is uppercased when the previous
character was not a letter, lowercased otherwise; non-letters pass through.
The Bool state records whether the previous character was a letter. -/
def titleChar (prevAlpha : Bool) (c : Char) : Char :=
  if c.isAlpha then (if prevAlpha then c.toLower else c.toUpper) else c

def titleGo : Bool → List Char → List Char
  | _, [] => []
  | prevAlpha, c :: cs => titleChar prevAlpha c :: titleGo c.isAlpha cs

/-- Model of Python str.title (ASCII letters). -/
def pyTitle (s : String) : String :=
  String.mk (titleGo false s.data)

/-- Model of Python int(s) on a string: optional surrounding whitespace,
optional sign, decimal digits (digit-group underscores are not modelled). -/
def pyInt? (s : String) : Option Int :=
  let t := s.trim
  if t.startsWith "+" then ((t.drop 1).toNat?).map Int.ofNat
  else t.toInt?

theorem toLower_toUpper (c : Char) : (c.toUpper).toLower = c.toLower := by
  by_cases h : 97 ≤ c.toNat ∧ c.toNat ≤ 122
  · have hc : c = Char.ofNat c.toNat := (Char.ofNat_toNat c).symm
    obtain ⟨h1, h2⟩ := h
    set n := c.toNat with hn
    interval_cases n <;> (rw [hc]; decide)
  · have h2 : ¬ (c.toNat ≥ 97 ∧ c.toNat ≤ 122) := h
    simp only [Char.toUpper, h2, if_false]

theorem toLower_toLower (c : Char) : (c.toLower).toLower = c.toLower := by
  by_cases h : 65 ≤ c.toNat ∧ c.toNat ≤ 90
  · have hc : c = Char.ofNat c.toNat := (Char.ofNat_toNat c).symm
    obtain ⟨h1, h2⟩ := h
    set n := c.toNat with hn
    interval_cases n <;> (rw [hc]; decide)
  · have h2 : ¬ (c.toNat ≥ 65 ∧ c.toNat ≤ 90) := h
    simp only [Char.toLower, h2, if_false]

theorem toLower_titleChar (b : Bool) (c : Char) :
    (titleChar b c).toLower = c.toLower := by
  unfold titleChar
  by_cases ha : c.isAlpha = true
  · cases b <;> simp [ha, toLower_toUpper, toLower_toLower]
  · simp [ha]

theorem map_toLower_titleGo (b : Bool) (l : List Char) :
    (titleGo b l).map Char.toLower = l.map Char.toLower := by
  induction l generalizing b with
  | nil => rfl
  | cons c cs ih => simp [titleGo, toLower_titleChar, ih]

/-- Lowercasing absorbs title-casing: key to the case-insensitive lookup. -/
theorem lowerStr_pyTitle (s : String) : lowerStr (pyTitle s) = lowerStr s := by
  unfold lowerStr pyTitle
  simp [map_toLower_titleGo]

/-! ## Calendar dates

Dates are day counts since 1970-01-01 (proleptic Gregorian). The two civil
conversions below are the standard era-based algorithms; they are used to
model date.isoformat and date.fromisoformat. -/

/-- Day count of the civil date y-m-d (1 ≤ m ≤ 12). -/
def daysFromCivil (y : Nat) (m d : Nat) : Int :=
  let yAdj : Int := if m ≤ 2 then (y : Int) - 1 else (y : Int)
  let era : Int := yAdj / 400
  let yoe : Nat := (yAdj - era * 400).toNat
  let mp : Nat := if 2 < m then m - 3 else m + 9
  let doy : Nat := (153 * mp + 2) / 5 + d - 1
  let doe : Nat := yoe * 365 + yoe / 4 - yoe / 100 + doy
  era * 146097 + (doe : Int) - 719468

/-- Civil date (year, month, day) of a day count. -/
def civilFromDays (z : Int) : Int × Nat × Nat :=
  let z2 : Int := z + 719468
  let era : Int := z2 / 146097
  let doe : Nat := (z2 - era * 146097).toNat
  let yoe : Nat := (doe - doe / 1460 + doe / 36524 - doe / 146096) / 365
  let doy : Nat := doe - (365 * yoe + yoe / 4 - yoe / 100)
  let mp : Nat := (5 * doy + 2) / 153
  let d : Nat := doy - (153 * mp + 2) / 5 + 1
  let m : Nat := if mp < 10 then mp + 3 else mp - 9
  let y : Int := (yoe : Int) + era * 400 + (if m ≤ 2 then 1 else 0)
  (y, m, d)

/-- Zero-padded decimal rendering of a Nat to a minimum width. -/
def padNum (width n : Nat) : String :=
  let s := toString n
  String.mk (List.replicate (width - s.length) (Char.ofNat 48)) ++ s

/-- Model of date.isoformat: YYYY-MM-DD. -/
def isoformat (z : Int) : String :=
  let c := civilFromDays z
  padNum 4 c.1.toNat ++ "-" ++ padNum 2 c.2.1 ++ "-" ++ padNum 2 c.2.2

def isLeapYear (y : Nat) : Bool :=
  y % 4 = 0 && (y % 100 ≠ 0 || y % 400 = 0)

def daysInMonth (y m : Nat) : Nat :=
  if m = 2 then (if isLeapYear y then 29 else 28)
  else if m = 4 ∨ m = 6 ∨ m = 9 ∨ m = 11 then 30
  else 31

def digitsToNat (l : List Char) : Nat :=
  l.foldl (fun acc c => 10 * acc + (c.toNat - 48)) 0

/-- Model of date.fromisoformat: accepts exactly YYYY-MM-DD for a valid
civil date (year at least 1), returning its day count; None models the
ValueError that Python raises otherwise. -/
def parseIsoDate (s : String) : Option Int :=
  match s.data with
  | [y1, y2, y3, y4, s1, m1, m2, s2, d1, d2] =>
    if s1 = Char.ofNat 45 ∧ s2 = Char.ofNat 45 ∧
        ([y1, y2, y3, y4, m1, m2, d1, d2].all Char.isDigit) then
      let y := digitsToNat [y1, y2, y3, y4]
      let m := digitsToNat [m1, m2]
      let d := digitsToNat [d1, d2]
      if 1 ≤ y ∧ 1 ≤ m ∧ m ≤ 12 ∧ 1 ≤ d ∧ d ≤ daysInMonth y m then
        some (daysFromCivil y m d)
      else none
    else none
  | _ => none

/-! ## tracker/plan_calculator.py

The reference table plant_data is the flat structure of data.json: a dict
whose keys are plant names and whose values are per-plant dicts. The legacy
shape guarded by a top-level "plants" key (plan_calculator.py lines 50-54)
is outside this data shape and thus never taken; it is not modelled. -/

/-- A days_after_planting value as read from data.json: JSON null (also
modelling an absent key, since the code reads it with .get), a number, or a
string. -/
inductive DaysVal where
  | null
  | num (n : Int)
  | str (s : String)
deriving DecidableEq, Repr

/-- One item of a care_schedule list. An absent task_title key is modelled
as the empty string, which is observationally the .get default used by the
code. -/
structure TaskItem where
  task_title : String
  days_after_planting : DaysVal
deriving DecidableEq, Repr

/-- The per-plant dict. care_schedule = none models a dict without the
care_schedule key; has_other_keys records whether the dict carries further
keys, which only matters for its Python truthiness. -/
structure PlantInfo where
  care_schedule : Option (List TaskItem)
  has_other_keys : Bool
deriving DecidableEq, Repr

/-- Python truthiness of the per-plant dict: nonempty. -/
def PlantInfo.truthy (i : PlantInfo) : Bool :=
  i.care_schedule.isSome || i.has_other_keys

/-- The plant_data dict, as an association list in insertion order. -/
abbrev PlantData := List (String × PlantInfo)

/-- Python dict lookup: plant_data[k] when k is a key. -/
def findKey (k : String) (pd : PlantData) : Option PlantInfo :=
  (pd.find? (fun kv => kv.1 == k)).map (fun kv => kv.2)

/-- The crop-name matching of calculate_plan (lines 34-47): exact key,
then title-cased key, then first key equal up to letter case. -/
def lookupPlantInfo (crop_name : String) (pd : PlantData) : Option PlantInfo :=
  match findKey crop_name pd with
  | some i => some i
  | none =>
    match findKey (pyTitle crop_name) pd with
    | some i => some i
    | none =>
      (pd.find? (fun kv => lowerStr kv.1 == lowerStr crop_name)).map (fun kv => kv.2)

/-- The day offset a schedule item contributes: skipped when null or the
empty string (lines 70-74), otherwise int(days_after); a string that int
rejects is skipped through the caught ValueError (lines 76-86). -/
def daysOf : DaysVal → Option Int
  | .null => none
  | .num n => some n
  | .str s => if s = "" then none else pyInt? s

/-- One entry of the returned plan. due_date is carried as an Option
because the sort key reads it with .get (line 89); construction always
fills it. -/
structure PlanTask where
  task : String
  due_date : Option Int
deriving DecidableEq, Repr

/-- The plan-building loop of calculate_plan (lines 68-86): one entry per
schedule item with a usable day offset, due planting_date + offset days. -/
def planEntries (planting_date : Int) (cs : List TaskItem) : List PlanTask :=
  cs.filterMap (fun ti =>
    (daysOf ti.days_after_planting).map
      (fun n => { task := ti.task_title, due_date := some (planting_date + n) }))

/-- The sort key of line 89: x.get(due_date, date.today()). -/
def dueKey (today : Int) (t : PlanTask) : Int :=
  t.due_date.getD today

def dueLeB (today : Int) (a b : PlanTask) : Bool :=
  dueKey today a ≤ dueKey today b

/-- Insert into a sorted list, before the first element it compares ≤ to;
together with sortStable this models the stable Python list.sort. -/
def insertSorted {α : Type} (le : α → α → Bool) (a : α) : List α → List α
  | [] => [a]
  | b :: l => if le a b then a :: b :: l else b :: insertSorted le a l

/-- Stable sort (insertion sort): equal keys keep their original order,
as Python list.sort guarantees. -/
def sortStable {α : Type} (le : α → α → Bool) : List α → List α
  | [] => []
  | a :: l => insertSorted le a (sortStable le l)

/-- Shallow embedding of calculate_plan (plan_calculator.py lines 12-92).
today is the ambient date the code could read through date.today() in the
sort key default. -/
def calculate_plan (today : Int) (crop_name : String) (planting_date : Int)
    (plant_data : PlantData) : List PlanTask :=
  if plant_data.isEmpty then []
  else
    match lookupPlantInfo crop_name plant_data with
    | none => []
    | some plant_info =>
      if ¬ plant_info.truthy then []
      else if (plant_info.care_schedule.getD []).isEmpty then []
      else
        sortStable (dueLeB today)
          (planEntries planting_date (plant_info.care_schedule.getD []))

/-! ## Sorting lemmas -/

theorem insertSorted_perm {α : Type} (le : α → α → Bool) (a : α) (l : List α) :
    (insertSorted le a l).Perm (a :: l) := by
  induction l with
  | nil => simp [insertSorted]
  | cons b l ih =>
    unfold insertSorted
    by_cases h : le a b = true
    · simp [h]
    · simp only [h, if_false]
      exact ((ih.cons b).trans (List.Perm.swap a b l))

theorem sortStable_perm {α : Type} (le : α → α → Bool) (l : List α) :
    (sortStable le l).Perm l := by
  induction l with
  | nil => simp [sortStable]
  | cons a l ih =>
    exact (insertSorted_perm le a (sortStable le l)).trans (ih.cons a)

theorem mem_sortStable {α : Type} {le : α → α → Bool} {l : List α} {x : α} :
    x ∈ sortStable le l ↔ x ∈ l :=
  (sortStable_perm le l).mem_iff

theorem mem_insertSorted {α : Type} {le : α → α → Bool} {a x : α} {l : List α} :
    x ∈ insertSorted le a l ↔ x = a ∨ x ∈ l := by
  rw [(insertSorted_perm le a l).mem_iff, List.mem_cons]

theorem pairwise_insertSorted {α : Type} {le : α → α → Bool}
    (htot : ∀ a b, le a b = true ∨ le b a = true)
    (htrans : ∀ a b c, le a b = true → le b c = true → le a c = true)
    (a : α) {l : List α} (h : l.Pairwise (fun x y => le x y = true)) :
    (insertSorted le a l).Pairwise (fun x y => le x y = true) := by
  induction l with
  | nil => simp [insertSorted]
  | cons b l ih =>
    rw [List.pairwise_cons] at h
    obtain ⟨hb, hl⟩ := h
    unfold insertSorted
    by_cases hab : le a b = true
    · simp only [hab, if_true]
      refine List.Pairwise.cons ?_ (List.Pairwise.cons hb hl)
      intro y hy
      rcases List.mem_cons.mp hy with rfl | hy
      · exact hab
      · exact htrans a b y hab (hb y hy)
    · simp only [hab, if_false]
      refine List.Pairwise.cons ?_ (ih hl)
      intro y hy
      rcases mem_insertSorted.mp hy with hEq | hy
      · rw [hEq]
        rcases htot a b with h1 | h1
        · exact absurd h1 hab
        · exact h1
      · exact hb y hy

theorem pairwise_sortStable {α : Type} {le : α → α → Bool}
    (htot : ∀ a b, le a b = true ∨ le b a = true)
    (htrans : ∀ a b c, le a b = true → le b c = true → le a c = true)
    (l : List α) :
    (sortStable le l).Pairwise (fun x y => le x y = true) := by
  induction l with
  | nil => simp [sortStable]
  | cons a l ih => exact pairwise_insertSorted htot htrans a ih

theorem insertSorted_congr {α : Type} {le₁ le₂ : α → α → Bool} (a : α)
    {l : List α} (h : ∀ b ∈ l, le₁ a b = le₂ a b) :
    insertSorted le₁ a l = insertSorted le₂ a l := by
  induction l with
  | nil => rfl
  | cons b l ih =>
    unfold insertSorted
    rw [h b (List.mem_cons_self b l)]
    by_cases hb : le₂ a b = true
    · simp [hb]
    · simp only [hb, if_false]
      rw [ih (fun c hc => h c (List.mem_cons_of_mem b hc))]

theorem sortStable_congr {α : Type} {le₁ le₂ : α → α → Bool}
    {l : List α} (h : ∀ a ∈ l, ∀ b ∈ l, le₁ a b = le₂ a b) :
    sortStable le₁ l = sortStable le₂ l := by
  induction l with
  | nil => rfl
  | cons a l ih =>
    unfold sortStable
    rw [ih (fun x hx y hy =>
      h x (List.mem_cons_of_mem a hx) y (List.mem_cons_of_mem a hy))]
    exact insertSorted_congr a (fun b hb =>
      h a (List.mem_cons_self a l) b
        (List.mem_cons_of_mem a (mem_sortStable.mp hb)))

/-! ## Case-insensitive lookup lemmas -/

/-- When the keys of the table are pairwise distinct up to letter case, any
match whose key is case-equal to the crop name is also what the plain
case-insensitive scan finds first. -/
theorem find?_ci_of_find? {s : String} {pd : PlantData}
    {q : String × PlantInfo → Bool} {kv : String × PlantInfo}
    (hpw : pd.Pairwise (fun a b => lowerStr a.1 ≠ lowerStr b.1))
    (hq : ∀ x, q x = true → lowerStr x.1 = lowerStr s)
    (hfind : pd.find? q = some kv) :
    pd.find? (fun x => lowerStr x.1 == lowerStr s) = some kv := by
  induction pd with
  | nil => simp at hfind
  | cons x l ih =>
    rw [List.pairwise_cons] at hpw
    obtain ⟨hx, hl⟩ := hpw
    by_cases hqx : q x = true
    · rw [List.find?_cons_of_pos _ hqx] at hfind
      cases hfind
      exact List.find?_cons_of_pos _ (by simp only [beq_iff_eq]; exact hq _ hqx)
    · rw [List.find?_cons_of_neg _ hqx] at hfind
      have hkv : kv ∈ l := List.mem_of_find?_eq_some hfind
      have hkvs : lowerStr kv.1 = lowerStr s := hq kv (List.find?_some hfind)
      have hxne : ¬ (lowerStr x.1 == lowerStr s) = true := by
        simp only [beq_iff_eq]
        rw [← hkvs]
        exact hx kv hkv
      have hstep :
          List.find? (fun y : String × PlantInfo => lowerStr y.1 == lowerStr s) (x :: l)
            = List.find? (fun y => lowerStr y.1 == lowerStr s) l :=
        List.find?_cons_of_neg _ hxne
      rw [hstep]
      exact ih hl hfind

/-- Under case-insensitively distinct keys, the three-step lookup of
calculate_plan agrees with a single case-insensitive scan. -/
theorem lookupPlantInfo_eq_ci {s : String} {pd : PlantData}
    (hpw : pd.Pairwise (fun a b => lowerStr a.1 ≠ lowerStr b.1)) :
    lookupPlantInfo s pd =
      (pd.find? (fun kv => lowerStr kv.1 == lowerStr s)).map (fun kv => kv.2) := by
  unfold lookupPlantInfo findKey
  cases h1 : pd.find? (fun kv => kv.1 == s) with
  | some kv =>
    have : pd.find? (fun x => lowerStr x.1 == lowerStr s) = some kv := by
      refine find?_ci_of_find? hpw ?_ h1
      intro x hx
      rw [eq_of_beq hx]
    simp [this]
  | none =>
    cases h2 : pd.find? (fun kv => kv.1 == pyTitle s) with
    | some kv =>
      have : pd.find? (fun x => lowerStr x.1 == lowerStr s) = some kv := by
        refine find?_ci_of_find? hpw ?_ h2
        intro x hx
        rw [eq_of_beq hx, lowerStr_pyTitle]
      simp [this]
    | none => simp

theorem lookupPlantInfo_congr {s t : String} {pd : PlantData}
    (hpw : pd.Pairwise (fun a b => lowerStr a.1 ≠ lowerStr b.1))
    (hst : lowerStr s = lowerStr t) :
    lookupPlantInfo s pd = lookupPlantInfo t pd := by
  rw [lookupPlantInfo_eq_ci hpw, lookupPlantInfo_eq_ci hpw, hst]

/-! ## Stored planting records (session / DynamoDB items) -/

/-- A task of a stored care plan: due_date is an ISO date string (none
models a dict without the key). -/
structure StoredTask where
  task : String
  due_date : Option String
deriving DecidableEq, Repr

/-- A planting record as kept in the session list and written to DynamoDB
(views.py lines 421-434). -/
structure StoredPlanting where
  crop_name : String
  planting_date : Option String
  batch_id : String
  notes : String
  plan : List StoredTask
  image_url : String
  user_id : Option String
  username : Option String
  planting_id : String
deriving DecidableEq, Repr

/-- Python exceptions distinguished by the embedded code. nameError also
covers UnboundLocalError, its subclass. -/
inductive PyErr where
  | typeError
  | valueError
  | nameError
deriving DecidableEq, Repr

/-! ## tracker/s3_helper.py -/

/-- Characters after the last dot of a file name (the whole name when it
has no dot): name.split(".")[-1]. -/
def afterLastDot (l : List Char) : List Char :=
  l.foldl (fun acc c => if c = Char.ofNat 46 then [] else acc ++ [c]) []

/-- Model of upload_planting_image (s3_helper.py lines 22-61) for a file
with a nonempty name. uploadOk is the outcome of the S3 put; the helper
catches its own failures and returns the empty string. Returns the public
URL and whether an S3 object now exists. Percent rules of real URLs are
not modelled. -/
def upload_planting_image (uploadOk : Bool) (imageName imageUuid bucket : String) :
    String × Bool :=
  if uploadOk then
    let extension := lowerStr (String.mk (afterLastDot imageName.data))
    ("https://" ++ bucket ++ ".s3.amazonaws.com/media/planting_images/"
      ++ imageUuid ++ "." ++ extension, true)
  else ("", false)

/-! ## tracker/dynamodb_helper.py -/

/-- Model of save_planting_to_dynamodb (dynamodb_helper.py lines 224-267)
on a dict argument. putOk is the outcome of the DynamoDB put_item call
(false covers ClientError and any other exception, which the helper
catches, returning None); freshId models the uuid4 drawn when the item has
no usable planting_id. Returns the planting id on success. -/
def save_planting_to_dynamodb (putOk : Bool) (freshId : String)
    (item : StoredPlanting) : Option String :=
  let pid := if item.planting_id ≠ "" then item.planting_id else freshId
  if (item.user_id.getD "") = "" ∧ (item.username.getD "") = "" then none
  else if putOk then some pid else none

/-- Behaviour of the save_planting_to_dynamodb call site in views.py:
either the helper runs (with the given put outcome), or the call raises,
which views.py catches (lines 444-445). -/
inductive DynamoCall where
  | runs (putOk : Bool)
  | raises
deriving DecidableEq, Repr

/-! ## views.save_planting (views.py lines 332-454) -/

inductive Method where
  | get
  | post
deriving DecidableEq, Repr

inductive SaveResponse where
  | redirectLogin
  | redirectIndex
  | serverError (e : PyErr)
deriving DecidableEq, Repr

structure SaveOutcome where
  response : SaveResponse
  session : List StoredPlanting
  s3Uploaded : Bool
  dynamoWritten : Bool
deriving DecidableEq, Repr

/-- The POST data and files of the request. -/
structure SaveRequest where
  method : Method
  crop_name : Option String
  planting_date : Option String
  batch_id : Option String
  notes : Option String
  hasImage : Bool
  imageName : String
deriving DecidableEq, Repr

/-- The ambient state save_planting reads: resolved identity, reference
table, drawn uuids, AWS outcomes and configuration. -/
structure SaveEnv where
  today : Int
  user_id : String
  username : Option String
  plant_data : PlantData
  localId : String
  s3ok : Bool
  imageUuid : String
  bucket : String
  freshDynamoId : String
deriving Repr

/-- Modelled from the spec: views._get_calculate_plan (views.py lines
21-44) resolves a plan callable from the module smartharvest_plan.plan,
which is not among the sources; per the spec, the Plan Calculator maps a
crop name, a planting date and the reference table to an ordered list of
task and due_date pairs by adding each day offset to the planting date,
skipping entries with no offset and sorting by date. That is the
behaviour of calculate_plan in tracker/plan_calculator.py, so the
resolved callable is modelled as that function. -/
def resolved_plan_function : Int → String → Int → PlantData → List PlanTask :=
  calculate_plan

/-- batch-YYYYMMDD, the default batch id (views.py line 386). -/
def defaultBatchId (today : Int) : String :=
  let c := civilFromDays today
  "batch-" ++ padNum 4 c.1.toNat ++ padNum 2 c.2.1 ++ padNum 2 c.2.2

/-- Serialization of the computed plan for storage (views.py lines
416-418): due dates become ISO strings. -/
def serializePlan (plan : List PlanTask) : List StoredTask :=
  plan.map (fun t => { task := t.task, due_date := t.due_date.map isoformat })

/-- The new planting dict composed at views.py lines 421-434, before the
DynamoDB write. -/
def composedPlanting (env : SaveEnv) (req : SaveRequest) (crop : String)
    (pdate : Int) (image_url : String) : StoredPlanting :=
  { crop_name := crop
    planting_date := some (isoformat pdate)
    batch_id := (req.batch_id).getD (defaultBatchId env.today)
    notes := (req.notes).getD ""
    plan := serializePlan (resolved_plan_function env.today crop pdate env.plant_data)
    image_url := image_url
    user_id := some env.user_id
    username := env.username
    planting_id := env.localId }

/-- The DynamoDB step of save_planting (views.py lines 436-445): on a
returned id the planting takes it, on a falsy return or a raised
exception the local id stays; the Bool records whether DynamoDB holds the
planting. -/
def dynamoStep (dyn : DynamoCall) (freshId : String) (newP : StoredPlanting) :
    StoredPlanting × Bool :=
  match dyn with
  | .raises => (newP, false)
  | .runs putOk =>
    match save_planting_to_dynamodb putOk freshId newP with
    | some rid => ({ newP with planting_id := rid }, true)
    | none => (newP, false)

/-- Shallow embedding of views.save_planting. dyn is the behaviour of the
DynamoDB call; session is the user_plantings list of the session. -/
def save_planting (env : SaveEnv) (dyn : DynamoCall) (req : SaveRequest)
    (session : List StoredPlanting) : SaveOutcome :=
  if req.method ≠ .post then
    { response := .redirectIndex, session := session,
      s3Uploaded := false, dynamoWritten := false }
  else if env.user_id = "" then
    { response := .redirectLogin, session := session,
      s3Uploaded := false, dynamoWritten := false }
  else
    let up :=
      if req.hasImage then
        upload_planting_image env.s3ok req.imageName env.imageUuid env.bucket
      else ("", false)
    let image_url := up.1
    let uploaded := up.2
    if (req.crop_name).getD "" = "" ∨ (req.planting_date).getD "" = "" then
      { response := .redirectIndex, session := session,
        s3Uploaded := uploaded, dynamoWritten := false }
    else
      match parseIsoDate ((req.planting_date).getD "") with
      | none =>
        { response := .serverError .valueError, session := session,
          s3Uploaded := uploaded, dynamoWritten := false }
      | some pdate =>
        let newP := composedPlanting env req ((req.crop_name).getD "") pdate image_url
        let step := dynamoStep dyn env.freshDynamoId newP
        { response := .redirectIndex, session := session ++ [step.1],
          s3Uploaded := uploaded, dynamoWritten := step.2 }

/-! ## views.index (views.py lines 71-194) -/

/-- The session-filtering comprehension of views.py lines 130-133. The
second disjunct reads the name username, which has no prior assignment in
index (its first assignment is at line 210), so reaching it raises
UnboundLocalError, a NameError; the Python or only evaluates it when the
first disjunct is false for the element at hand. -/
def sessionFilter (user_id : String) :
    List StoredPlanting → Except PyErr (List StoredPlanting)
  | [] => .ok []
  | p :: ps =>
    if p.user_id == some user_id then
      (sessionFilter user_id ps).map (fun l => p :: l)
    else .error .nameError

/-- Normalized due date of a stored plan task (views.py lines 168-175
with the harvest-candidate truthiness check of line 178): an absent key
or empty string is falsy, a string that fromisoformat rejects is set to
None; valid strings become dates. -/
def normDue (d : Option String) : Option Int :=
  match d with
  | none => none
  | some s => parseIsoDate s

/-- Harvest date: due date of the last plan task that has one (views.py
line 178). -/
def harvestOf (plan : List StoredTask) : Option Int :=
  match plan.reverse.find? (fun t => (normDue t.due_date).isSome) with
  | some t => normDue t.due_date
  | none => none

inductive Category where
  | ongoing
  | upcoming
  | past
deriving DecidableEq, Repr

/-- The classification of views.py lines 179-189: past when the harvest
date is before today, upcoming when at most 7 days from today, ongoing
otherwise or when no task has a due date. -/
def categoryOf (today : Int) (harvest_date : Option Int) : Category :=
  match harvest_date with
  | some h =>
    if h < today then .past
    else if h - today ≤ 7 then .upcoming
    else .ongoing
  | none => .ongoing

/-- A planting as prepared by the processing loop (views.py lines
148-176): list index, parsed planting date, plan and derived harvest
date. -/
structure ProcessedPlanting where
  idx : Nat
  planting_date : Int
  plan : List StoredTask
  harvest_date : Option Int
  crop_name : String
deriving DecidableEq, Repr

/-- One iteration of the processing loop: none models the continue taken
for a missing or unparseable planting_date (lines 154-165, with the
enclosing try of line 149 catching the fromisoformat ValueError). -/
def processOne (i : Nat) (p : StoredPlanting) : Option ProcessedPlanting :=
  match p.planting_date with
  | none => none
  | some s =>
    match parseIsoDate s with
    | none => none
    | some d => some ⟨i, d, p.plan, harvestOf p.plan, p.crop_name⟩

/-- The partitioning loop of views.py lines 144-192, producing the
ongoing, upcoming and past lists in iteration order. -/
def partitionGo (today : Int) :
    List (Nat × StoredPlanting) →
      List ProcessedPlanting × List ProcessedPlanting × List ProcessedPlanting
  | [] => ([], [], [])
  | ip :: rest =>
    let r := partitionGo today rest
    match processOne ip.1 ip.2 with
    | none => r
    | some q =>
      match categoryOf today q.harvest_date with
      | .ongoing => (q :: r.1, r.2.1, r.2.2)
      | .upcoming => (r.1, q :: r.2.1, r.2.2)
      | .past => (r.1, r.2.1, q :: r.2.2)

def indexPartition (today : Int) (ps : List StoredPlanting) :
    List ProcessedPlanting × List ProcessedPlanting × List ProcessedPlanting :=
  partitionGo today ps.enum

/-- Shallow embedding of views.index up to the rendered task lists.
user_id is the resolved identity (empty when none); dynamo is what
load_user_plantings returned (empty also covering a raised and caught
exception, lines 121-122); session is the user_plantings session list. -/
def index (today : Int) (user_id : String) (dynamo : List StoredPlanting)
    (session : List StoredPlanting) :
    Except PyErr
      (List ProcessedPlanting × List ProcessedPlanting × List ProcessedPlanting) :=
  let fromDyn := if user_id ≠ "" then dynamo else []
  let plantings :=
    if ¬ fromDyn.isEmpty then .ok fromDyn
    else if session.isEmpty then .ok []
    else if user_id ≠ "" then
      (sessionFilter user_id session).map
        (fun filtered => if ¬ filtered.isEmpty then filtered else [])
    else .ok session
  plantings.map (indexPartition today)

/-! ## tracker/cognito.py and views.cognito_login (views.py lines 724-774) -/

inductive HttpResult where
  | redirect (url : String)
  | serverError (msg : String)
deriving DecidableEq, Repr

structure CognitoSettings where
  domain : String
  client_id : String
  redirect_uri : String
  scope : Option String
deriving DecidableEq, Repr

/-- Simple k=v pair join modelling urlencode (percent-encoding is not
modelled; the claims never inspect the URL). -/
def urlencodeSimple (params : List (String × String)) : String :=
  String.intercalate "&" (params.map (fun kv => kv.1 ++ "=" ++ kv.2))

/-- Body of build_authorize_url (cognito.py lines 44-67); its only
parameters are state and scope. -/
def build_authorize_url (st : CognitoSettings) (state scope : Option String) : String :=
  let scope := scope.getD (st.scope.getD "openid email")
  let params := [("response_type", "code"), ("client_id", st.client_id),
    ("redirect_uri", st.redirect_uri), ("scope", scope)]
  let params := params ++ (match state with | some s => [("state", s)] | none => [])
  "https://" ++ st.domain ++ "/oauth2/authorize?" ++ urlencodeSimple params

/-- The keyword parameters build_authorize_url accepts. -/
def build_authorize_url_params : List String := ["state", "scope"]

/-- Python keyword-argument binding for a call to build_authorize_url:
an unexpected keyword raises TypeError before the body runs. -/
def callBuildAuthorizeUrl (st : CognitoSettings) (kwargs : List (String × String)) :
    Except PyErr String :=
  if kwargs.all (fun kv => build_authorize_url_params.contains kv.1) then
    .ok (build_authorize_url st
      ((kwargs.lookup "state"))
      ((kwargs.lookup "scope")))
  else .error .typeError

/-- Shallow embedding of views.cognito_login: configuration checks, then
the call build_authorize_url with the keyword argument redirect_uri
(views.py line 757); a ValueError yields the configuration 500, any other
exception the generic 500 (lines 760-774). -/
def cognito_login (st : CognitoSettings) : HttpResult :=
  if st.domain = "" then .serverError "Cognito domain not configured"
  else if st.client_id = "" then .serverError "Cognito client ID not configured"
  else if st.redirect_uri = "" then .serverError "Cognito redirect URI not configured"
  else
    match callBuildAuthorizeUrl st [("redirect_uri", st.redirect_uri)] with
    | .ok url => .redirect url
    | .error .valueError => .serverError "Configuration error"
    | .error _ => .serverError "Error redirecting to Cognito"

/-! ## Facts about the computed plan -/

theorem due_isSome_of_mem_planEntries {planting_date : Int} {cs : List TaskItem}
    {t : PlanTask} (h : t ∈ planEntries planting_date cs) : t.due_date.isSome := by
  unfold planEntries at h
  rcases List.mem_filterMap.mp h with ⟨ti, _, hmap⟩
  rcases Option.map_eq_some'.mp hmap with ⟨n, _, heq⟩
  rw [← heq]
  rfl

theorem dueLeB_total (today : Int) :
    ∀ a b, dueLeB today a b = true ∨ dueLeB today b a = true := by
  intro a b
  unfold dueLeB
  rcases le_total (dueKey today a) (dueKey today b) with h | h
  · exact Or.inl (decide_eq_true h)
  · exact Or.inr (decide_eq_true h)

theorem dueLeB_trans (today : Int) :
    ∀ a b c, dueLeB today a b = true → dueLeB today b c = true →
      dueLeB today a c = true := by
  intro a b c h1 h2
  unfold dueLeB at h1 h2 ⊢
  exact decide_eq_true (le_trans (of_decide_eq_true h1) (of_decide_eq_true h2))

theorem care_schedule_eq_none_of_not_truthy {info : PlantInfo}
    (h : ¬ info.truthy = true) : info.care_schedule = none := by
  cases hcs : info.care_schedule with
  | none => rfl
  | some l =>
    exfalso
    apply h
    unfold PlantInfo.truthy
    rw [hcs]
    rfl

/-- C1: for every crop name the lookup resolves in the reference table and
every planting date, calculate_plan returns exactly one entry per
care-schedule item carrying a usable day offset, with the item title as
task and the planting date plus the offset as due_date; items without an
offset contribute nothing. (The order of the entries is the subject of
C3; here the returned list is identified as a permutation of the built
entries.) -/
theorem calculate_plan_entries_of_lookup (today : Int) (crop_name : String)
    (planting_date : Int) (plant_data : PlantData) (info : PlantInfo)
    (h : lookupPlantInfo crop_name plant_data = some info) :
    (calculate_plan today crop_name planting_date plant_data).Perm
      (planEntries planting_date (info.care_schedule.getD [])) := by
  have hne : plant_data.isEmpty = false := by
    cases plant_data with
    | nil => simp [lookupPlantInfo, findKey] at h
    | cons a l => rfl
  simp only [calculate_plan, hne, Bool.false_eq_true, if_false, h]
  by_cases ht : info.truthy = true
  · simp only [ht, not_true, if_false]
    by_cases hcs : (info.care_schedule.getD []).isEmpty = true
    · rw [List.isEmpty_iff.mp hcs]
      simp [planEntries]
    · simp only [hcs, if_false]
      exact sortStable_perm _ _
  · rw [if_pos ht, care_schedule_eq_none_of_not_truthy ht]
    simp [planEntries]

def c1Info : PlantInfo :=
  { care_schedule := some
      [ { task_title := "Water", days_after_planting := .num 3 }
      , { task_title := "Mist", days_after_planting := .null }
      , { task_title := "Harvest", days_after_planting := .str "10" }
      , { task_title := "Oops", days_after_planting := .str "soon" } ]
    has_other_keys := true }

def c1Table : PlantData := [("Basil", c1Info)]

theorem calculate_plan_entries_of_lookup_witness :
    lookupPlantInfo "Basil" c1Table = some c1Info ∧
      (calculate_plan 0 "Basil" 100 c1Table).Perm
        (planEntries 100 (c1Info.care_schedule.getD [])) :=
  ⟨by decide, calculate_plan_entries_of_lookup 0 "Basil" 100 c1Table c1Info (by decide)⟩

/-- C3: the list calculate_plan returns is sorted in non-decreasing order
of due_date, on every input. -/
theorem calculate_plan_sorted_by_due_date (today : Int) (crop_name : String)
    (planting_date : Int) (plant_data : PlantData) :
    (calculate_plan today crop_name planting_date plant_data).Pairwise
      (fun a b => ∃ x y, a.due_date = some x ∧ b.due_date = some y ∧ x ≤ y) := by
  unfold calculate_plan
  split
  · exact List.Pairwise.nil
  · split
    · exact List.Pairwise.nil
    · split
      · exact List.Pairwise.nil
      · split
        · exact List.Pairwise.nil
        · refine List.Pairwise.imp_of_mem ?_
            (pairwise_sortStable (dueLeB_total today) (dueLeB_trans today) _)
          intro a b ha hb hle
          obtain ⟨x, hx⟩ :=
            Option.isSome_iff_exists.mp
              (due_isSome_of_mem_planEntries (mem_sortStable.mp ha))
          obtain ⟨y, hy⟩ :=
            Option.isSome_iff_exists.mp
              (due_isSome_of_mem_planEntries (mem_sortStable.mp hb))
          refine ⟨x, y, hx, hy, ?_⟩
          have hk := of_decide_eq_true hle
          unfold dueKey at hk
          rw [hx, hy] at hk
          simpa using hk

/-- C7: calculate_plan is pure and deterministic: the ambient date that
the code can read through date.today() in the sort-key default never
influences the result, and equal inputs give equal outputs. -/
theorem calculate_plan_pure :
    (∀ (today₁ today₂ : Int) (crop_name : String) (planting_date : Int)
        (plant_data : PlantData),
      calculate_plan today₁ crop_name planting_date plant_data =
        calculate_plan today₂ crop_name planting_date plant_data) ∧
    (∀ (today : Int) (c₁ c₂ : String) (p₁ p₂ : Int) (d₁ d₂ : PlantData),
      c₁ = c₂ → p₁ = p₂ → d₁ = d₂ →
        calculate_plan today c₁ p₁ d₁ = calculate_plan today c₂ p₂ d₂) := by
  constructor
  · intro t₁ t₂ crop_name planting_date plant_data
    unfold calculate_plan
    split
    · rfl
    · split
      · rfl
      · split
        · rfl
        · split
          · rfl
          · apply sortStable_congr
            intro a ha b hb
            obtain ⟨x, hx⟩ :=
              Option.isSome_iff_exists.mp (due_isSome_of_mem_planEntries ha)
            obtain ⟨y, hy⟩ :=
              Option.isSome_iff_exists.mp (due_isSome_of_mem_planEntries hb)
            unfold dueLeB dueKey
            rw [hx, hy]
            rfl
  · intro today c₁ c₂ p₁ p₂ d₁ d₂ hc hp hd
    rw [hc, hp, hd]

theorem calculate_plan_pure_witness :
    calculate_plan 0 "Basil" 100 c1Table = calculate_plan 365 "Basil" 100 c1Table ∧
      calculate_plan 0 "Basil" 100 c1Table = calculate_plan 0 "Basil" 100 c1Table :=
  ⟨calculate_plan_pure.1 0 365 "Basil" 100 c1Table,
   calculate_plan_pure.2 0 "Basil" "Basil" 100 100 c1Table c1Table rfl rfl rfl⟩

/-! ## C4: case sensitivity of the crop-name lookup -/

def c4Table : PlantData :=
  [ ("AB", { care_schedule := some [⟨"water", .num 1⟩], has_other_keys := false })
  , ("Ab", { care_schedule := some [⟨"water", .num 2⟩], has_other_keys := false }) ]

/-- C4 counterexample: the crop names AB and ab are equal up to letter
case, yet against a table whose keys AB and Ab differ only in case,
calculate_plan resolves AB by exact match and ab by title-case match,
returning different plans. -/
theorem calculate_plan_case_counterexample :
    lowerStr "AB" = lowerStr "ab" ∧
      calculate_plan 0 "AB" 0 c4Table ≠ calculate_plan 0 "ab" 0 c4Table := by
  constructor
  · decide
  · decide

/-- C4 amended: when no two keys of the reference table are equal up to
letter case, calculate_plan returns the same plan for any two crop names
that are equal up to letter case. -/
theorem calculate_plan_case_insensitive_of_distinct_keys (today : Int)
    (s t : String) (planting_date : Int) (plant_data : PlantData)
    (hpw : plant_data.Pairwise (fun a b => lowerStr a.1 ≠ lowerStr b.1))
    (hst : lowerStr s = lowerStr t) :
    calculate_plan today s planting_date plant_data =
      calculate_plan today t planting_date plant_data := by
  unfold calculate_plan
  rw [lookupPlantInfo_congr hpw hst]

theorem calculate_plan_case_insensitive_witness :
    c1Table.Pairwise (fun a b => lowerStr a.1 ≠ lowerStr b.1) ∧
      lowerStr "BASIL" = lowerStr "basil" ∧
      calculate_plan 0 "BASIL" 5 c1Table = calculate_plan 0 "basil" 5 c1Table :=
  ⟨by decide, by decide,
   calculate_plan_case_insensitive_of_distinct_keys 0 "BASIL" "basil" 5 c1Table
     (by decide) (by decide)⟩

/-! ## Claims about views.save_planting -/

/-- The planting of the DynamoDB step keeps the plan of the dict passed
in; only its planting_id can change. -/
theorem dynamoStep_plan (dyn : DynamoCall) (freshId : String) (p : StoredPlanting) :
    ((dynamoStep dyn freshId p).1).plan = p.plan := by
  cases dyn with
  | raises => rfl
  | runs putOk =>
    simp only [dynamoStep]
    cases save_planting_to_dynamodb putOk freshId p with
    | none => rfl
    | some rid => rfl

/-- What the DynamoDB helper returns on the planting that save_planting
composes: the already-set local planting id on success, None otherwise. -/
theorem save_to_dynamo_composed (putOk : Bool) (env : SaveEnv) (req : SaveRequest)
    (c : String) (pdate : Int) (url : String)
    (hlocal : env.localId ≠ "") (huid : env.user_id ≠ "") :
    save_planting_to_dynamodb putOk env.freshDynamoId
        (composedPlanting env req c pdate url) =
      if putOk then some env.localId else none := by
  unfold save_planting_to_dynamodb composedPlanting
  simp only
  rw [if_pos hlocal, if_neg (by simp [huid])]

/-- On the composed planting the DynamoDB step is invisible: the stored
record is the same whatever the call does. -/
theorem dynamoStep_composed (dyn : DynamoCall) (env : SaveEnv) (req : SaveRequest)
    (c : String) (pdate : Int) (url : String)
    (hlocal : env.localId ≠ "") (huid : env.user_id ≠ "") :
    (dynamoStep dyn env.freshDynamoId (composedPlanting env req c pdate url)).1 =
      composedPlanting env req c pdate url := by
  cases dyn with
  | raises => rfl
  | runs putOk =>
    simp only [dynamoStep]
    rw [save_to_dynamo_composed putOk env req c pdate url hlocal huid]
    cases putOk with
    | false => rfl
    | true => rfl


/-- C2: every planting stored through an authenticated POST with
crop_name and planting_date present carries a plan field equal to the
care plan computed from that crop name and planting date, due dates
serialized as ISO strings. The planting date must parse, or the view
raises before storing anything. reason: spec-modelled through
resolved_plan_function. -/
theorem save_planting_stores_plan (env : SaveEnv) (dyn : DynamoCall)
    (req : SaveRequest) (session : List StoredPlanting) (c s : String) (pdate : Int)
    (hm : req.method = .post) (huid : env.user_id ≠ "")
    (hc : req.crop_name = some c) (hcne : c ≠ "")
    (hs : req.planting_date = some s) (hp : parseIsoDate s = some pdate) :
    ∃ p : StoredPlanting,
      (save_planting env dyn req session).session = session ++ [p] ∧
        p.plan = serializePlan (resolved_plan_function env.today c pdate env.plant_data) := by
  have hsne : s ≠ "" := by
    intro h
    rw [h] at hp
    exact Option.noConfusion hp
  unfold save_planting
  rw [hm, hc, hs]
  simp only [ne_eq, not_true_eq_false, if_false, Option.getD_some, hp]
  rw [if_neg huid, if_neg (by simp [hcne, hsne])]
  exact ⟨_, rfl, by rw [dynamoStep_plan]; rfl⟩


def svTable : PlantData :=
  [("Basil", { care_schedule := some [⟨"Water", .num 2⟩, ⟨"Harvest", .num 10⟩],
               has_other_keys := false })]

def svEnv : SaveEnv :=
  { today := 19787, user_id := "u1", username := some "bob", plant_data := svTable,
    localId := "loc-1", s3ok := true, imageUuid := "im-1",
    bucket := "terratrack-media", freshDynamoId := "fresh-1" }

def svReq : SaveRequest :=
  { method := .post, crop_name := some "Basil", planting_date := some "2024-03-05",
    batch_id := none, notes := some "two rows", hasImage := false, imageName := "" }

theorem save_planting_stores_plan_witness :
    ∃ p : StoredPlanting,
      (save_planting svEnv (.runs true) svReq []).session = [] ++ [p] ∧
        p.plan = serializePlan (resolved_plan_function 19787 "Basil" 19787 svTable) :=
  save_planting_stores_plan svEnv (.runs true) svReq [] "Basil" "2024-03-05" 19787
    rfl (by decide) rfl (by decide) rfl (by decide)

def c6Req : SaveRequest :=
  { method := .post, crop_name := some "Basil", planting_date := some "not-a-date",
    batch_id := none, notes := none, hasImage := false, imageName := "" }

/-- C6 counterexample: on an authenticated POST whose crop_name and
planting_date are both present but whose planting date is not an ISO
date, date.fromisoformat at views.py line 408 raises an uncaught
ValueError: the view answers 500 and the session does not grow by one,
against the claim that every such POST appends the planting. -/
theorem save_planting_unparseable_date_counterexample :
    svEnv.user_id ≠ "" ∧
      c6Req.method = .post ∧
      c6Req.crop_name = some "Basil" ∧
      c6Req.planting_date = some "not-a-date" ∧
      save_planting svEnv (.runs true) c6Req [] =
        { response := .serverError .valueError, session := [],
          s3Uploaded := false, dynamoWritten := false } :=
  ⟨by decide, rfl, rfl, rfl, rfl⟩

/-- C6 amended: the dual write of save_planting. On an authenticated POST
with crop_name present and a planting_date that parses as an ISO date,
the new planting is appended to the session list, which grows by exactly
one with all previous entries unchanged, whatever the DynamoDB call does;
success, a falsy return and a raised exception all leave the same
response and the same session. (Without the parse condition the
fromisoformat call at views.py line 408 raises before any write, as the
counterexample shows.) -/
theorem save_planting_dual_write (env : SaveEnv) (req : SaveRequest)
    (session : List StoredPlanting) (c s : String) (pdate : Int)
    (hm : req.method = .post) (huid : env.user_id ≠ "")
    (hc : req.crop_name = some c) (hcne : c ≠ "")
    (hs : req.planting_date = some s) (hp : parseIsoDate s = some pdate)
    (hlocal : env.localId ≠ "") :
    ∀ dyn : DynamoCall,
      (save_planting env dyn req session).response = .redirectIndex ∧
        (save_planting env dyn req session).session =
          session ++ [composedPlanting env req c pdate
            (if req.hasImage then
              upload_planting_image env.s3ok req.imageName env.imageUuid env.bucket
            else ("", false)).1] := by
  have hsne : s ≠ "" := by
    intro h
    rw [h] at hp
    exact Option.noConfusion hp
  intro dyn
  unfold save_planting
  rw [hm, hc, hs]
  simp only [ne_eq, not_true_eq_false, if_false, Option.getD_some, hp]
  rw [if_neg huid, if_neg (by simp [hcne, hsne])]
  rw [dynamoStep_composed dyn env req c pdate _ hlocal huid]
  exact ⟨rfl, rfl⟩

theorem save_planting_dual_write_witness :
    ((save_planting svEnv (.runs true) svReq []).response = .redirectIndex ∧
        (save_planting svEnv (.runs true) svReq []).session =
          [] ++ [composedPlanting svEnv svReq "Basil" 19787
            (if svReq.hasImage then
              upload_planting_image svEnv.s3ok svReq.imageName svEnv.imageUuid svEnv.bucket
            else ("", false)).1]) ∧
      ((save_planting svEnv .raises svReq []).response = .redirectIndex ∧
        (save_planting svEnv .raises svReq []).session =
          [] ++ [composedPlanting svEnv svReq "Basil" 19787
            (if svReq.hasImage then
              upload_planting_image svEnv.s3ok svReq.imageName svEnv.imageUuid svEnv.bucket
            else ("", false)).1]) :=
  ⟨save_planting_dual_write svEnv svReq [] "Basil" "2024-03-05" 19787
      rfl (by decide) rfl (by decide) rfl (by decide) (by decide) (.runs true),
   save_planting_dual_write svEnv svReq [] "Basil" "2024-03-05" 19787
      rfl (by decide) rfl (by decide) rfl (by decide) (by decide) .raises⟩

/-- C10: save_planting uploads a provided image to S3 before validating
the required fields: on an authenticated POST carrying an image but
missing crop_name or planting_date, the upload happens (and succeeds when
S3 does) yet the handler then redirects with the session unchanged and
nothing written to DynamoDB, leaving the S3 object behind. -/
theorem save_planting_uploads_before_validation (env : SaveEnv) (dyn : DynamoCall)
    (req : SaveRequest) (session : List StoredPlanting)
    (hm : req.method = .post) (huid : env.user_id ≠ "")
    (hi : req.hasImage = true) (hs3 : env.s3ok = true)
    (hmiss : (req.crop_name).getD "" = "" ∨ (req.planting_date).getD "" = "") :
    save_planting env dyn req session =
      { response := .redirectIndex, session := session,
        s3Uploaded := true, dynamoWritten := false } := by
  unfold save_planting
  rw [hm]
  simp only [ne_eq, not_true_eq_false, if_false]
  rw [if_neg huid, hi, if_pos hmiss]
  simp [upload_planting_image, hs3]

def svReq10 : SaveRequest :=
  { method := .post, crop_name := none, planting_date := some "2024-03-05",
    batch_id := none, notes := none, hasImage := true, imageName := "rose.JPG" }

theorem save_planting_uploads_before_validation_witness :
    save_planting svEnv (.runs true) svReq10 [] =
      { response := .redirectIndex, session := [],
        s3Uploaded := true, dynamoWritten := false } :=
  save_planting_uploads_before_validation svEnv (.runs true) svReq10 []
    rfl (by decide) rfl rfl (Or.inl rfl)

/-! ## Claims about views.index -/

/-- The partitioning loop written as a filter over the processed
plantings. -/
theorem partitionGo_eq_filter (today : Int) (l : List (Nat × StoredPlanting)) :
    partitionGo today l =
      ((l.filterMap (fun ip => processOne ip.1 ip.2)).filter
          (fun q => categoryOf today q.harvest_date == .ongoing),
        (l.filterMap (fun ip => processOne ip.1 ip.2)).filter
          (fun q => categoryOf today q.harvest_date == .upcoming),
        (l.filterMap (fun ip => processOne ip.1 ip.2)).filter
          (fun q => categoryOf today q.harvest_date == .past)) := by
  induction l with
  | nil => rfl
  | cons ip rest ih =>
    simp only [partitionGo, ih, List.filterMap_cons]
    cases hq : processOne ip.1 ip.2 with
    | none => rfl
    | some q =>
      cases hc : categoryOf today q.harvest_date with
      | ongoing => simp [List.filter_cons, hc]
      | upcoming => simp [List.filter_cons, hc]
      | past => simp [List.filter_cons, hc]

/-- C5: the index view puts every displayed planting (parseable
planting_date) in exactly one of the three lists, the one its harvest
date prescribes: past when before today, upcoming when between today and
today + 7, ongoing when later or when no plan task has a due date. -/
theorem index_partitions_by_harvest (today : Int) (ps : List StoredPlanting) :
    (indexPartition today ps =
      ((ps.enum.filterMap (fun ip => processOne ip.1 ip.2)).filter
          (fun q => categoryOf today q.harvest_date == .ongoing),
        (ps.enum.filterMap (fun ip => processOne ip.1 ip.2)).filter
          (fun q => categoryOf today q.harvest_date == .upcoming),
        (ps.enum.filterMap (fun ip => processOne ip.1 ip.2)).filter
          (fun q => categoryOf today q.harvest_date == .past))) ∧
    (∀ h : Option Int,
      (categoryOf today h = .past ↔ ∃ d, h = some d ∧ d < today) ∧
      (categoryOf today h = .upcoming ↔
        ∃ d, h = some d ∧ today ≤ d ∧ d ≤ today + 7) ∧
      (categoryOf today h = .ongoing ↔
        h = none ∨ ∃ d, h = some d ∧ today + 7 < d)) := by
  refine ⟨partitionGo_eq_filter today ps.enum, ?_⟩
  intro h
  cases h with
  | none =>
    refine ⟨?_, ?_, ?_⟩ <;> simp [categoryOf]
  | some d =>
    simp only [categoryOf, Option.some.injEq]
    by_cases h1 : d < today
    · rw [if_pos h1]
      refine ⟨?_, ?_, ?_⟩
      · simp only [true_iff]
        exact ⟨d, rfl, h1⟩
      · constructor
        · intro hcat
          exact absurd hcat (by simp)
        · rintro ⟨d2, hd2, hge, _⟩
          omega
      · constructor
        · intro hcat
          exact absurd hcat (by simp)
        · rintro (hnone | ⟨d2, hd2, hgt⟩)
          · exact Option.noConfusion hnone
          · omega
    · rw [if_neg h1]
      by_cases h2 : d - today ≤ 7
      · rw [if_pos h2]
        refine ⟨?_, ?_, ?_⟩
        · constructor
          · intro hcat
            exact absurd hcat (by simp)
          · rintro ⟨d2, hd2, hlt⟩
            omega
        · simp only [true_iff]
          exact ⟨d, rfl, by omega, by omega⟩
        · constructor
          · intro hcat
            exact absurd hcat (by simp)
          · rintro (hnone | ⟨d2, hd2, hgt⟩)
            · exact Option.noConfusion hnone
            · omega
      · rw [if_neg h2]
        refine ⟨?_, ?_, ?_⟩
        · constructor
          · intro hcat
            exact absurd hcat (by simp)
          · rintro ⟨d2, hd2, hlt⟩
            omega
        · constructor
          · intro hcat
            exact absurd hcat (by simp)
          · rintro ⟨d2, hd2, hge, hle⟩
            omega
        · simp only [true_iff]
          exact Or.inr ⟨d, rfl, by omega⟩

/-! ## C9: the session-filter NameError in views.index -/

theorem sessionFilter_error {user_id : String} {l : List StoredPlanting}
    (h : ∃ p ∈ l, p.user_id ≠ some user_id) :
    sessionFilter user_id l = .error .nameError := by
  induction l with
  | nil =>
    rcases h with ⟨p, hp, _⟩
    cases hp
  | cons q l ih =>
    unfold sessionFilter
    by_cases hq : (q.user_id == some user_id) = true
    · rw [if_pos hq]
      rcases h with ⟨p, hp, hne⟩
      rcases List.mem_cons.mp hp with hEq | hp2
      · exact absurd (hEq ▸ eq_of_beq hq) hne
      · rw [ih ⟨p, hp2, hne⟩]
        rfl
    · rw [if_neg hq]

/-- C9 amended: with a resolved non-empty user id, no DynamoDB plantings
and a non-empty session list, the view raises the unhandled NameError
(an UnboundLocalError on the name username, whose first assignment in
index is only at line 210) whenever some session planting does not carry
the resolved user id; when every session entry matches, the or in the
comprehension short-circuits before reading username and the view
renders, as the counterexample shows. -/
theorem index_session_mismatch_name_error (today : Int) (user_id : String)
    (dynamo session : List StoredPlanting)
    (huid : user_id ≠ "") (hdyn : dynamo = []) (hsess : session ≠ [])
    (hmism : ∃ p ∈ session, p.user_id ≠ some user_id) :
    index today user_id dynamo session = .error .nameError := by
  subst hdyn
  have hse : session.isEmpty = false := by
    cases session with
    | nil => exact absurd rfl hsess
    | cons a l => rfl
  unfold index
  rw [if_pos huid]
  simp only [List.isEmpty_nil, Bool.not_true, hse, sessionFilter_error hmism]
  rw [if_neg (by simp), if_neg (by simp), if_pos huid]
  rfl

def c9Good : StoredPlanting :=
  { crop_name := "Basil", planting_date := some "2024-03-05", batch_id := "b1",
    notes := "", plan := [{ task := "Harvest", due_date := some "2024-03-15" }],
    image_url := "", user_id := some "u1", username := some "bob",
    planting_id := "p1" }

/-- C9 counterexample: with user id u1 resolved, an empty DynamoDB result
and the non-empty session [c9Good] whose only entry carries user id u1,
the comprehension never evaluates username (the or short-circuits) and
index renders instead of raising, against the claim that it raises
whenever these preconditions hold. -/
theorem index_name_error_counterexample :
    ("u1" : String) ≠ "" ∧ ([c9Good] : List StoredPlanting) ≠ [] ∧
      index 0 "u1" [] [c9Good] = .ok (indexPartition 0 [c9Good]) := by
  refine ⟨by decide, by simp, rfl⟩

def c9Bad : StoredPlanting :=
  { crop_name := "Basil", planting_date := some "2024-03-05", batch_id := "b1",
    notes := "", plan := [], image_url := "", user_id := some "someone-else",
    username := some "eve", planting_id := "p2" }

theorem index_session_mismatch_name_error_witness :
    index 0 "u1" [] [c9Bad] = .error .nameError :=
  index_session_mismatch_name_error 0 "u1" [] [c9Bad] (by decide) rfl (by simp)
    ⟨c9Bad, by simp, by decide⟩

/-! ## C8: cognito_login always fails when configured -/

/-- C8: when COGNITO_DOMAIN, COGNITO_CLIENT_ID and COGNITO_REDIRECT_URI
are all configured, cognito_login answers HTTP 500 and never redirects:
the call passes build_authorize_url the keyword argument redirect_uri,
which its signature (state, scope) does not accept, raising a TypeError
that the generic handler turns into the 500 response. -/
theorem cognito_login_always_500 (st : CognitoSettings)
    (h1 : st.domain ≠ "") (h2 : st.client_id ≠ "") (h3 : st.redirect_uri ≠ "") :
    (∃ msg, cognito_login st = .serverError msg) ∧
      ∀ url, cognito_login st ≠ .redirect url := by
  have hcall : callBuildAuthorizeUrl st [("redirect_uri", st.redirect_uri)] =
      .error .typeError := by
    unfold callBuildAuthorizeUrl
    have hfalse : (([("redirect_uri", st.redirect_uri)]).all
        (fun kv => build_authorize_url_params.contains kv.1)) = false := rfl
    rw [if_neg (by rw [hfalse]; exact Bool.false_ne_true)]
  unfold cognito_login
  rw [if_neg h1, if_neg h2, if_neg h3, hcall]
  exact ⟨⟨"Error redirecting to Cognito", rfl⟩, fun url h => HttpResult.noConfusion h⟩

def c8Settings : CognitoSettings :=
  { domain := "myapp.auth.us-east-1.amazoncognito.com",
    client_id := "client123", redirect_uri := "https://example.org/callback",
    scope := none }

theorem cognito_login_always_500_witness :
    (∃ msg, cognito_login c8Settings = .serverError msg) ∧
      ∀ url, cognito_login c8Settings ≠ .redirect url :=
  cognito_login_always_500 c8Settings (by decide) (by decide) (by decide)

end SmartHarvester
